import Mathlib

/-!
Verification of the task-tracking widget in `armazenamento_local/script.js`.

The script keeps two in-memory arrays (`tarefasPendentes`, `tarefasFeitas`)
of task records and persists them under the localStorage keys `"pendentes"`
and `"feitas"` as JSON.  We shallow-embed the state as a structure holding
the two lists together with the contents of the two storage cells, and embed
each mutation function of the script as a state transformer.

The browser primitives (`localStorage`, `JSON.stringify`/`JSON.parse`) are
external collaborators, not code of the repository; we model a storage cell
at the granularity the script observes: the cell is absent (`getItem`
returns `null`, and `JSON.parse(null)` yields `null`, turned into `[]` by
`|| []`), holds a serialized list of task records (what `gravarDados`
writes), or holds malformed text on which `JSON.parse` throws.
-/

/-- A task record, as built by `criarObjetoTarefa` in the script: six string
fields plus the `feita` ("done") flag. -/
structure Tarefa where
  titulo : String
  responsavel : String
  dataInicio : String
  dataFim : String
  prioridade : String
  obs : String
  feita : Bool
deriving DecidableEq, Repr

/-- The raw values of the form fields read by `criarObjetoTarefa`
(before any trimming). -/
structure FormEntrada where
  titulo : String
  responsavel : String
  dataInicio : String
  dataFim : String
  prioridade : String
  obs : String
deriving DecidableEq, Repr

/-- One localStorage cell as observed by the script through
`JSON.parse(localStorage.getItem(key))`:
* `absent`    — no value stored (`getItem` returns `null`);
* `malformed` — stored text on which `JSON.parse` throws;
* `tasks l`   — serialized array of task records, as written by
  `JSON.stringify` in `gravarDados`. -/
inductive StoredCell where
  | absent : StoredCell
  | malformed : StoredCell
  | tasks : List Tarefa → StoredCell
deriving DecidableEq, Repr

/-- The full program state: the two in-memory arrays of the script and the
two persisted cells (`"pendentes"` and `"feitas"` keys). -/
structure Estado where
  tarefasPendentes : List Tarefa
  tarefasFeitas : List Tarefa
  storPendentes : StoredCell
  storFeitas : StoredCell
deriving DecidableEq, Repr

/-- Initial state: both arrays start empty (`const tarefasPendentes = []`,
`const tarefasFeitas = []`) and nothing persisted. -/
def estadoInicial : Estado :=
  { tarefasPendentes := [], tarefasFeitas := [],
    storPendentes := .absent, storFeitas := .absent }

/-- Model of the JavaScript `String.prototype.trim` platform primitive:
removes whitespace characters from both ends of the string. -/
def jsTrim (s : String) : String :=
  ⟨((s.data.dropWhile fun c => c.isWhitespace).reverse.dropWhile
      fun c => c.isWhitespace).reverse⟩

/-- `criarObjetoTarefa`: builds a record from the form fields, trimming the
free-text fields (`titulo`, `responsavel`, `obs`) and setting
`feita: false`. -/
def criarObjetoTarefa (f : FormEntrada) : Tarefa :=
  { titulo := jsTrim f.titulo
    responsavel := jsTrim f.responsavel
    dataInicio := f.dataInicio
    dataFim := f.dataFim
    prioridade := f.prioridade
    obs := jsTrim f.obs
    feita := false }

/-- The start position computed by JavaScript `Array.prototype.splice` for a
(possibly negative) start argument: negative starts count from the end,
clamped below at `0`; non-negative starts are clamped above at the
length. -/
def spliceStart (len : Nat) (i : Int) : Nat :=
  if i < 0 then ((len : Int) + i).toNat else min i.toNat len

/-- `arr.splice(i, 1)`: the element removed (if any — `undefined`
is modeled as `none`) and the array after removal. -/
def spliceOne (l : List Tarefa) (i : Int) : Option Tarefa × List Tarefa :=
  let s := spliceStart l.length i
  (l.get? s, l.take s ++ l.drop (s + 1))

/-- `concluirTarefa(indice)`: `splice` the record out of
`tarefasPendentes`; if `splice` removed nothing (`tarefa` is `undefined`)
return with the state unchanged; otherwise set `feita = true` and push the
record onto `tarefasFeitas`.  (`atualizarListas` only rebuilds the DOM and
is not part of the state.) -/
def concluirTarefa (indice : Int) (e : Estado) : Estado :=
  match spliceOne e.tarefasPendentes indice with
  | (none, _) => e
  | (some t, restantes) =>
      { e with tarefasPendentes := restantes
               tarefasFeitas := e.tarefasFeitas ++ [{ t with feita := true }] }

/-- `excluirFeita(indice)`: `splice` the record out of `tarefasFeitas`
unconditionally (no guard in the script). -/
def excluirFeita (indice : Int) (e : Estado) : Estado :=
  { e with tarefasFeitas := (spliceOne e.tarefasFeitas indice).2 }

/-- `gravarDados`: writes `JSON.stringify(tarefasPendentes)` under
`"pendentes"` and `JSON.stringify(tarefasFeitas)` under `"feitas"`.  The
`try/catch` only logs a storage write error; we model the medium accepting
the write. -/
def gravarDados (e : Estado) : Estado :=
  { e with storPendentes := .tasks e.tarefasPendentes
           storFeitas := .tasks e.tarefasFeitas }

/-- The result of `JSON.parse(localStorage.getItem(key)) || []` on one
cell: an absent key yields `[]` (parse of `null` gives `null`, replaced by
`[]`), malformed text throws, and a serialized list parses back to that
list (an empty array is truthy in JavaScript, and `[] || []` is `[]`
anyway). -/
def parseCell : StoredCell → Except Unit (List Tarefa)
  | .absent => .ok []
  | .malformed => .error ()
  | .tasks l => .ok l

/-- `recuperarDados`: inside a `try`, parse the `"pendentes"` cell, then
the `"feitas"` cell, and only then clear the two in-memory arrays and push
the parsed records verbatim.  Both parses happen before any mutation, so a
parse exception is caught with the in-memory arrays untouched. -/
def recuperarDados (e : Estado) : Estado :=
  match parseCell e.storPendentes, parseCell e.storFeitas with
  | .ok pendentesSalvos, .ok feitasSalvas =>
      { e with tarefasPendentes := pendentesSalvos
               tarefasFeitas := feitasSalvas }
  | _, _ => e

/-- `limparStorage`: removes both keys from the medium (`removeItem`, with
errors only logged) and then also empties both in-memory arrays. -/
def limparStorage (_e : Estado) : Estado :=
  { tarefasPendentes := [], tarefasFeitas := [],
    storPendentes := .absent, storFeitas := .absent }

/-- The `taskForm` submit handler: build the record with
`criarObjetoTarefa`; if the trimmed title is empty (`!tarefa.titulo`),
return without mutating anything; otherwise push the record onto
`tarefasPendentes` and call `gravarDados`. -/
def submitTaskForm (f : FormEntrada) (e : Estado) : Estado :=
  if (criarObjetoTarefa f).titulo = "" then e
  else gravarDados
    { e with tarefasPendentes := e.tarefasPendentes ++ [criarObjetoTarefa f] }

/-- One user operation on the store: form submission (add), clicking
"Concluir" on pending index `i` (which the script follows with
`gravarDados`), or clicking "Excluir" on completed index `i` (likewise
followed by `gravarDados`). -/
inductive Op where
  | add : FormEntrada → Op
  | complete : Int → Op
  | remove : Int → Op
deriving Repr

/-- Apply one operation, as wired in the script (mutation then automatic
persistence). -/
def applyOp (e : Estado) : Op → Estado
  | .add f => submitTaskForm f e
  | .complete i => gravarDados (concluirTarefa i e)
  | .remove i => gravarDados (excluirFeita i e)

/-- Run a sequence of operations from the empty store. -/
def runOps (ops : List Op) : Estado :=
  ops.foldl applyOp estadoInicial

/-- The memory invariant of the spec: every record in the pending array has
`feita = false` and every record in the completed array has
`feita = true`. -/
def memInv (e : Estado) : Prop :=
  (∀ t ∈ e.tarefasPendentes, t.feita = false) ∧
  (∀ t ∈ e.tarefasFeitas, t.feita = true)

instance (e : Estado) : Decidable (memInv e) := by
  unfold memInv; infer_instance

/- Sample data used by witnesses and counterexamples. -/

/-- A concrete form input with a non-empty title. -/
def formExemplo : FormEntrada :=
  { titulo := "Buy milk", responsavel := "Ana", dataInicio := "2024-01-01",
    dataFim := "2024-01-02", prioridade := "High", obs := "" }

/-- The task record produced from `formExemplo`. -/
def tarefaExemplo : Tarefa := criarObjetoTarefa formExemplo

/-- A state with one pending task and nothing else. -/
def estadoUm : Estado :=
  { tarefasPendentes := [tarefaExemplo], tarefasFeitas := [],
    storPendentes := .absent, storFeitas := .absent }

/-- A state with one pending task in memory and malformed text persisted
under the `"pendentes"` key. -/
def estadoMalformado : Estado :=
  { tarefasPendentes := [tarefaExemplo], tarefasFeitas := [],
    storPendentes := .malformed, storFeitas := .absent }

/-- A form whose title is whitespace-only. -/
def formVazio : FormEntrada :=
  { titulo := "   ", responsavel := "Bob", dataInicio := "", dataFim := "",
    prioridade := "Low", obs := "" }

/-- A state whose in-memory arrays are empty while the `"pendentes"` cell
holds malformed text (the startup situation of scenario 5). -/
def estadoVazioMalformado : Estado :=
  { tarefasPendentes := [], tarefasFeitas := [],
    storPendentes := .malformed, storFeitas := .absent }

/-- A state whose persisted `"pendentes"` cell holds a record already
marked `feita = true`, disagreeing with the collection it is stored
under. -/
def estadoDesalinhado : Estado :=
  { tarefasPendentes := [], tarefasFeitas := [],
    storPendentes := .tasks [{ tarefaExemplo with feita := true }],
    storFeitas := .tasks [] }

/-! ## Helper lemmas -/

/-- Every element surviving a one-element `splice` was in the original
array. -/
lemma mem_of_spliceOne_snd {l : List Tarefa} {i : Int} {t : Tarefa}
    (h : t ∈ (spliceOne l i).2) : t ∈ l := by
  simp only [spliceOne] at h
  rcases List.mem_append.1 h with h' | h'
  · exact List.take_subset _ _ h'
  · exact List.drop_subset _ _ h'

/-- The element removed by a one-element `splice` was in the original
array. -/
lemma mem_of_spliceOne_fst {l : List Tarefa} {i : Int} {t : Tarefa}
    (h : (spliceOne l i).1 = some t) : t ∈ l := by
  simp only [spliceOne] at h
  exact List.get?_mem h

/-- `splice` with a start at or beyond the length removes nothing and
leaves the array unchanged. -/
lemma spliceOne_of_length_le {l : List Tarefa} {i : Int}
    (h : (l.length : Int) ≤ i) : spliceOne l i = (none, l) := by
  have h0 : ¬ i < 0 := by omega
  have hlen : min i.toNat l.length = l.length := by omega
  simp only [spliceOne, spliceStart, if_neg h0, hlen]
  rw [List.get?_eq_none.2 (le_refl _), List.take_length l,
    List.drop_eq_nil_of_le (by omega), List.append_nil]

/-- `gravarDados` does not touch the in-memory arrays. -/
lemma memInv_gravarDados {e : Estado} (h : memInv e) :
    memInv (gravarDados e) := h

/-- The submit handler preserves the memory invariant: the record it may
append has `feita = false`. -/
lemma memInv_submitTaskForm (f : FormEntrada) {e : Estado} (h : memInv e) :
    memInv (submitTaskForm f e) := by
  unfold submitTaskForm
  split
  · exact h
  · refine memInv_gravarDados ⟨?_, h.2⟩
    intro t ht
    rcases List.mem_append.1 ht with h' | h'
    · exact h.1 t h'
    · rw [List.mem_singleton.1 h']; rfl

/-- `concluirTarefa` preserves the memory invariant: the survivors of the
splice keep `feita = false` and the moved record is set to
`feita = true`. -/
lemma memInv_concluirTarefa (i : Int) {e : Estado} (h : memInv e) :
    memInv (concluirTarefa i e) := by
  unfold concluirTarefa
  rcases hsp : spliceOne e.tarefasPendentes i with ⟨o, rest⟩
  cases o with
  | none => exact h
  | some t =>
    refine ⟨?_, ?_⟩
    · intro u hu
      exact h.1 u (mem_of_spliceOne_snd (by rw [hsp]; exact hu))
    · intro u hu
      rcases List.mem_append.1 hu with h' | h'
      · exact h.2 u h'
      · rw [List.mem_singleton.1 h']

/-- `excluirFeita` preserves the memory invariant: it only drops
records. -/
lemma memInv_excluirFeita (i : Int) {e : Estado} (h : memInv e) :
    memInv (excluirFeita i e) := by
  refine ⟨h.1, fun t ht => h.2 t (mem_of_spliceOne_snd ht)⟩

/-- Every operation preserves the memory invariant. -/
lemma memInv_applyOp {e : Estado} (h : memInv e) (op : Op) :
    memInv (applyOp e op) := by
  cases op with
  | add f => exact memInv_submitTaskForm f h
  | complete i => exact memInv_gravarDados (memInv_concluirTarefa i h)
  | remove i => exact memInv_gravarDados (memInv_excluirFeita i h)

/-- The memory invariant is preserved along any fold of operations. -/
lemma memInv_foldl (ops : List Op) {e : Estado} (h : memInv e) :
    memInv (ops.foldl applyOp e) := by
  induction ops generalizing e with
  | nil => exact h
  | cons op ops ih => exact ih (memInv_applyOp h op)

/-- Any sequence of operations from the empty store satisfies the memory
invariant. -/
lemma memInv_runOps (ops : List Op) : memInv (runOps ops) :=
  memInv_foldl ops ⟨fun t ht => absurd ht (List.not_mem_nil t),
    fun t ht => absurd ht (List.not_mem_nil t)⟩

/-- On a state whose stored data is malformed, `recuperarDados` is the
identity: both parses run before any mutation, so the caught exception
leaves everything untouched. -/
lemma recuperarDados_malformed {e : Estado}
    (h : e.storPendentes = .malformed ∨ e.storFeitas = .malformed) :
    recuperarDados e = e := by
  rcases h with h | h <;> rw [recuperarDados, h]
  · rfl
  · cases hp : parseCell e.storPendentes <;> rfl

/-! ## Claims -/

/-- Claim C1: for every sequence of add/complete/remove operations from the
empty store, every task record in memory belongs to exactly one of the
pending and completed collections, and its `feita` flag is `false` iff it
is in pending and `true` iff it is in completed. -/
theorem c1_done_matches_membership (ops : List Op) (t : Tarefa)
    (h : t ∈ (runOps ops).tarefasPendentes ∨ t ∈ (runOps ops).tarefasFeitas) :
    (t.feita = false ↔ t ∈ (runOps ops).tarefasPendentes) ∧
    (t.feita = true ↔ t ∈ (runOps ops).tarefasFeitas) ∧
    ¬ (t ∈ (runOps ops).tarefasPendentes ∧ t ∈ (runOps ops).tarefasFeitas) := by
  obtain ⟨hp, hf⟩ := memInv_runOps ops
  rcases h with h | h
  · have h1 : t.feita = false := hp t h
    have h2 : t ∉ (runOps ops).tarefasFeitas := by
      intro hm
      rw [hf t hm] at h1
      exact absurd h1 (by decide)
    exact ⟨⟨fun _ => h, fun _ => h1⟩,
      ⟨fun ht => absurd (h1 ▸ ht) (by decide), fun hm => absurd hm h2⟩,
      fun hc => h2 hc.2⟩
  · have h1 : t.feita = true := hf t h
    have h2 : t ∉ (runOps ops).tarefasPendentes := by
      intro hm
      rw [hp t hm] at h1
      exact absurd h1 (by decide)
    exact ⟨⟨fun ht => absurd (h1 ▸ ht) (by decide), fun hm => absurd hm h2⟩,
      ⟨fun _ => h, fun _ => h1⟩,
      fun hc => h2 hc.1⟩

/-- Witness for C1 at the one-operation run adding a concrete task. -/
theorem c1_done_matches_membership_w :
    (tarefaExemplo.feita = false ↔
      tarefaExemplo ∈ (runOps [Op.add formExemplo]).tarefasPendentes) ∧
    (tarefaExemplo.feita = true ↔
      tarefaExemplo ∈ (runOps [Op.add formExemplo]).tarefasFeitas) ∧
    ¬ (tarefaExemplo ∈ (runOps [Op.add formExemplo]).tarefasPendentes ∧
       tarefaExemplo ∈ (runOps [Op.add formExemplo]).tarefasFeitas) :=
  c1_done_matches_membership [Op.add formExemplo] tarefaExemplo (Or.inl (by decide))

/-- Claim C2: for every state and every index addressing a record of the
pending collection, `concluirTarefa` removes exactly that record from
pending (the remaining records keep their relative order: the result is
the prefix before it followed by the suffix after it), sets `feita = true`
on it, and appends it at the end of the completed collection. -/
theorem c2_complete_moves_record (e : Estado) (i : Nat)
    (h : i < e.tarefasPendentes.length) :
    (concluirTarefa i e).tarefasPendentes
      = e.tarefasPendentes.take i ++ e.tarefasPendentes.drop (i + 1) ∧
    (concluirTarefa i e).tarefasFeitas
      = e.tarefasFeitas ++ [{ e.tarefasPendentes.get ⟨i, h⟩ with feita := true }] := by
  have h0 : ¬ ((i : Int) < 0) := by omega
  have hstart : spliceStart e.tarefasPendentes.length i = i := by
    simp only [spliceStart, if_neg h0, Int.toNat_natCast]
    omega
  have hsp : spliceOne e.tarefasPendentes (i : Int)
      = (some (e.tarefasPendentes.get ⟨i, h⟩),
         e.tarefasPendentes.take i ++ e.tarefasPendentes.drop (i + 1)) := by
    simp only [spliceOne, hstart, List.get?_eq_get h]
  unfold concluirTarefa
  rw [hsp]
  exact ⟨rfl, rfl⟩

/-- Witness for C2: completing index 0 of a one-task pending list. -/
theorem c2_complete_moves_record_w :
    (concluirTarefa 0 estadoUm).tarefasPendentes
      = estadoUm.tarefasPendentes.take 0 ++ estadoUm.tarefasPendentes.drop 1 ∧
    (concluirTarefa 0 estadoUm).tarefasFeitas
      = estadoUm.tarefasFeitas
        ++ [{ estadoUm.tarefasPendentes.get ⟨0, by decide⟩ with feita := true }] :=
  c2_complete_moves_record estadoUm 0 (by decide)

/-- Counterexample to C3 as stated: index `-1` is out of range for the
one-element pending collection, yet `concluirTarefa (-1)` moves the last
pending record to completed (JavaScript `splice` counts negative starts
from the end), so the collections do not stay unchanged. -/
theorem c3_negative_index_cex :
    ¬ ((concluirTarefa (-1) estadoUm).tarefasPendentes = estadoUm.tarefasPendentes ∧
       (concluirTarefa (-1) estadoUm).tarefasFeitas = estadoUm.tarefasFeitas) := by
  decide

/-- Claim C3 (amended): `concluirTarefa` and `excluirFeita` are no-ops
whenever the index is at least the length of the respective collection (in
particular for every non-negative out-of-range index); negative indices
follow `Array.splice` end-relative indexing instead. -/
theorem c3_no_op_above_length (e : Estado) (i : Int) :
    ((e.tarefasPendentes.length : Int) ≤ i → concluirTarefa i e = e) ∧
    ((e.tarefasFeitas.length : Int) ≤ i → excluirFeita i e = e) := by
  constructor
  · intro h
    unfold concluirTarefa
    rw [spliceOne_of_length_le h]
  · intro h
    unfold excluirFeita
    rw [spliceOne_of_length_le h]

/-- Witness for C3 (amended): index 5 is a no-op on both one-or-zero
element collections of `estadoUm`. -/
theorem c3_no_op_above_length_w :
    concluirTarefa 5 estadoUm = estadoUm ∧ excluirFeita 5 estadoUm = estadoUm :=
  ⟨(c3_no_op_above_length estadoUm 5).1 (by decide),
   (c3_no_op_above_length estadoUm 5).2 (by decide)⟩

/-- Claim C4: loading immediately after saving (no external mutation of
the medium in between) reproduces the same two sequences, records, order
and `feita` values included. -/
theorem c4_save_load_round_trip (e : Estado) :
    (recuperarDados (gravarDados e)).tarefasPendentes = e.tarefasPendentes ∧
    (recuperarDados (gravarDados e)).tarefasFeitas = e.tarefasFeitas :=
  ⟨rfl, rfl⟩

/-- Counterexample to C5 as stated: with malformed stored data but a
non-empty in-memory pending collection, `recuperarDados` leaves memory
untouched, so it does not result in empty collections. -/
theorem c5_malformed_not_emptied_cex :
    ¬ ((recuperarDados estadoMalformado).tarefasPendentes = [] ∧
       (recuperarDados estadoMalformado).tarefasFeitas = []) := by
  decide

/-- Claim C5 (amended): on malformed stored data, load catches the parse
failure (never propagating it — `recuperarDados` is a total function) and
leaves the in-memory collections unchanged; in particular when both were
empty before the call, as at startup, load results in empty pending and
empty completed. -/
theorem c5_malformed_load_safe (e : Estado)
    (hm : e.storPendentes = .malformed ∨ e.storFeitas = .malformed) :
    recuperarDados e = e ∧
    (e.tarefasPendentes = [] → (recuperarDados e).tarefasPendentes = []) ∧
    (e.tarefasFeitas = [] → (recuperarDados e).tarefasFeitas = []) :=
  have h := recuperarDados_malformed hm
  ⟨h, fun hp => by rw [h, hp], fun hf => by rw [h, hf]⟩

/-- Witness for C5 (amended) at the startup state with malformed
storage. -/
theorem c5_malformed_load_safe_w :
    recuperarDados estadoVazioMalformado = estadoVazioMalformado ∧
    (recuperarDados estadoVazioMalformado).tarefasPendentes = [] ∧
    (recuperarDados estadoVazioMalformado).tarefasFeitas = [] := by
  have h := c5_malformed_load_safe estadoVazioMalformado (Or.inl rfl)
  exact ⟨h.1, h.2.1 rfl, h.2.2 rfl⟩

/-- Counterexample to C6 as stated: `limparStorage` does modify the
in-memory collections — it empties a non-empty pending collection. -/
theorem c6_limpar_touches_memory_cex :
    (limparStorage estadoUm).tarefasPendentes ≠ estadoUm.tarefasPendentes := by
  decide

/-- Claim C6 (amended): `limparStorage` removes both persisted keys from
the medium and also empties both in-memory collections. -/
theorem c6_limpar_removes_keys_and_memory (e : Estado) :
    (limparStorage e).storPendentes = .absent ∧
    (limparStorage e).storFeitas = .absent ∧
    (limparStorage e).tarefasPendentes = [] ∧
    (limparStorage e).tarefasFeitas = [] :=
  ⟨rfl, rfl, rfl, rfl⟩

/-- Claim C7: for every form input with a non-empty trimmed title, the
submit handler appends the built record, with `feita = false`, at the end
of the pending collection (keeping all previous records and their order)
and leaves the completed collection unchanged. -/
theorem c7_add_appends_pending (f : FormEntrada) (e : Estado)
    (h : jsTrim f.titulo ≠ "") :
    (submitTaskForm f e).tarefasPendentes
      = e.tarefasPendentes ++ [criarObjetoTarefa f] ∧
    (criarObjetoTarefa f).feita = false ∧
    (submitTaskForm f e).tarefasFeitas = e.tarefasFeitas := by
  have hc : ¬ ((criarObjetoTarefa f).titulo = "") := h
  unfold submitTaskForm
  rw [if_neg hc]
  exact ⟨rfl, rfl, rfl⟩

/-- Witness for C7: submitting `formExemplo` on a one-task state. -/
theorem c7_add_appends_pending_w :
    (submitTaskForm formExemplo estadoUm).tarefasPendentes
      = estadoUm.tarefasPendentes ++ [criarObjetoTarefa formExemplo] ∧
    (criarObjetoTarefa formExemplo).feita = false ∧
    (submitTaskForm formExemplo estadoUm).tarefasFeitas = estadoUm.tarefasFeitas :=
  c7_add_appends_pending formExemplo estadoUm (by decide)

/-- Claim C8: for every form input whose title trims to the empty string,
the submit handler changes nothing: no record is added, both collections
are unchanged, and no persistence write happens (the whole state is
exactly the same). -/
theorem c8_blank_title_no_op (f : FormEntrada) (e : Estado)
    (h : jsTrim f.titulo = "") :
    submitTaskForm f e = e := by
  have hc : (criarObjetoTarefa f).titulo = "" := h
  unfold submitTaskForm
  rw [if_pos hc]

/-- Witness for C8: a whitespace-only title leaves the state untouched. -/
theorem c8_blank_title_no_op_w : submitTaskForm formVazio estadoUm = estadoUm :=
  c8_blank_title_no_op formVazio estadoUm (by decide)

/-- Claim C9: when the stored data fails to parse, `recuperarDados` leaves
both in-memory collections exactly as they were before the call — no
clearing and no partial restore, since both parses run before any
mutation. -/
theorem c9_malformed_load_atomic (e : Estado)
    (hm : e.storPendentes = .malformed ∨ e.storFeitas = .malformed) :
    (recuperarDados e).tarefasPendentes = e.tarefasPendentes ∧
    (recuperarDados e).tarefasFeitas = e.tarefasFeitas := by
  rw [recuperarDados_malformed hm]
  exact ⟨rfl, rfl⟩

/-- Witness for C9 at a state with one pending task and malformed
storage. -/
theorem c9_malformed_load_atomic_w :
    (recuperarDados estadoMalformado).tarefasPendentes
      = estadoMalformado.tarefasPendentes ∧
    (recuperarDados estadoMalformado).tarefasFeitas
      = estadoMalformado.tarefasFeitas :=
  c9_malformed_load_atomic estadoMalformado (Or.inl rfl)

/-- Claim C10: parseable stored sequences are loaded verbatim into the
collection they were stored under, `feita` flags included; consequently a
stored record whose `feita` flag disagrees with its collection produces an
in-memory state violating the done-matches-membership invariant. -/
theorem c10_load_verbatim (e : Estado) (l1 l2 : List Tarefa)
    (h1 : e.storPendentes = .tasks l1) (h2 : e.storFeitas = .tasks l2) :
    (recuperarDados e).tarefasPendentes = l1 ∧
    (recuperarDados e).tarefasFeitas = l2 ∧
    (((∃ t ∈ l1, t.feita = true) ∨ (∃ t ∈ l2, t.feita = false)) →
      ¬ memInv (recuperarDados e)) := by
  have hload : recuperarDados e
      = { e with tarefasPendentes := l1, tarefasFeitas := l2 } := by
    unfold recuperarDados
    rw [h1, h2]
    rfl
  refine ⟨by rw [hload], by rw [hload], ?_⟩
  rintro (⟨t, ht, hdone⟩ | ⟨t, ht, hdone⟩) ⟨hp, hf⟩
  · have hfalse := hp t (by rw [hload]; exact ht)
    rw [hdone] at hfalse
    exact absurd hfalse (by decide)
  · have htrue := hf t (by rw [hload]; exact ht)
    rw [hdone] at htrue
    exact absurd htrue (by decide)

/-- Witness for C10: storage holding a `feita = true` record under the
`"pendentes"` key loads verbatim and breaks the invariant. -/
theorem c10_load_verbatim_w :
    (recuperarDados estadoDesalinhado).tarefasPendentes
      = [{ tarefaExemplo with feita := true }] ∧
    (recuperarDados estadoDesalinhado).tarefasFeitas = [] ∧
    ¬ memInv (recuperarDados estadoDesalinhado) := by
  have h := c10_load_verbatim estadoDesalinhado
    [{ tarefaExemplo with feita := true }] [] rfl rfl
  exact ⟨h.1, h.2.1, h.2.2 (Or.inl ⟨_, List.mem_singleton.2 rfl, rfl⟩)⟩
